import Mathlib

/-!
Verification of the ennemi driver (`src/ennemi/_driver.py`).

The driver orchestrates (conditional) mutual-information estimation:
it validates inputs, computes lag-aligned windows of the observation
arrays, enumerates (lag, variable) tasks, dispatches them sequentially
or in parallel, and assembles the scalar results into a 2D grid.

The embedding below translates the Python source function by function.
Arrays become `List Int` (the orchestration is value-agnostic, so the
element type is immaterial); Python slices `a[i:j]` become `pySlice`
with Python's negative-index and clamping semantics; fallible code
returns `Except String`.  The two point estimators
(`_estimate_single_mi`, `_estimate_conditional_mi`) live outside the
driver and are abstracted as function parameters `est1`, `est2` with an
arbitrary result type.
-/

set_option maxRecDepth 4096

/-- Python slice index normalization for a sequence of length `n`:
a negative index counts from the end, clamped to `[0, n]`. -/
def pyIndex (n : Nat) (i : Int) : Nat :=
  if i < 0 then ((n : Int) + i).toNat else min i.toNat n

/-- Python slice `a[i:j]` (step 1) with Python's index semantics. -/
def pySlice (a : List α) (i j : Int) : List α :=
  (a.take (pyIndex a.length j)).drop (pyIndex a.length i)

/-- Numpy 1-D boolean-mask indexing `a[m]`: keeps the positions of `a`
where `m` is `true`; raises `IndexError` when the mask length does not
match the array length. -/
def boolIndex (a : List α) (m : List Bool) : Except String (List α) :=
  if m.length = a.length then
    .ok ((a.zip m).filterMap (fun p => if p.2 then some p.1 else none))
  else
    .error "boolean index did not match indexed array"

/-- An element of the user-supplied mask array: either a boolean, or a
value of some other type (numpy would then give the array a non-bool
dtype). -/
inductive MaskElem where
  | bool (b : Bool)
  | nonbool
deriving DecidableEq, Repr

/-- Whether `np.asarray(mask).dtype` is the boolean dtype: true exactly
when every element is a boolean. -/
def isBoolDtype (m : List MaskElem) : Bool :=
  m.all (fun e => match e with | .bool _ => true | .nonbool => false)

/-- The boolean value of a validated mask element. -/
def MaskElem.toBool : MaskElem → Bool
  | .bool b => b
  | .nonbool => false

/-- The mask as plain booleans (after validation, every element is a
boolean, so this is exact on every reachable input). -/
def maskToBools (mask : Option (List MaskElem)) : Option (List Bool) :=
  mask.map (List.map MaskElem.toBool)

/-- The `x` argument after `np.asarray`: a 1-D series or a rectangular
2-D array whose rows are observations and whose columns are variables. -/
inductive XData where
  | one (v : List Int)
  | two (rows : List (List Int))
deriving DecidableEq, Repr

/-- `x.shape[0]`: the observation count. -/
def XData.shape0 : XData → Nat
  | .one v => v.length
  | .two rows => rows.length

/-- Number of variables: 1 for a 1-D series, else `x.shape[1]`
(the common row length of the rectangular array). -/
def XData.nvar : XData → Nat
  | .one _ => 1
  | .two rows => (rows.headD []).length

/-- Column extraction `x[:,j]` for 2-D `x`; for 1-D `x` the whole
series (the driver passes the series itself in that case). -/
def XData.col (x : XData) (j : Nat) : List Int :=
  match x with
  | .one v => v
  | .two rows => rows.map (fun r => r.getD j 0)

/-- `_check_parameters` (`_driver.py` lines 135-152), translated check
by check in source order. -/
def check_parameters (x : XData) (y : List Int) (k : Nat)
    (cond : Option (List Int)) (mask : Option (List MaskElem)) :
    Except String Unit :=
  if x.shape0 ≠ y.length then
    .error "x and y must have same length"
  else if (match cond with
           | some c => x.shape0 != c.length
           | none => false) then
    .error "x and cond must have same length"
  else if x.shape0 ≤ k then
    .error "k must be smaller than number of observations"
  else
    match mask with
    | none => .ok ()
    | some m =>
      if m.length ≠ y.length then
        .error "mask length does not match y length"
      else if ¬ isBoolDtype m then
        .error "mask must contain only booleans"
      else
        .ok ()

/-- `_should_be_parallel` (`_driver.py` lines 155-167). -/
def should_be_parallel (parallel : Option String)
    (indices : List (Nat × Nat)) (ylen : Nat) : Except String Bool :=
  if parallel = some "always" then
    .ok true
  else if parallel = some "disable" then
    .ok false
  else
    match parallel with
    | some _ => .error "unrecognized value for parallel argument"
    | none => .ok (decide (indices.length > 1) && decide (ylen > 200))

/-- `np.min` of a nonempty array; the driver raises before this is ever
applied to an empty array. -/
def npMin : List Int → Int
  | [] => 0
  | a :: as => as.foldl min a

/-- `np.max` of a nonempty array. -/
def npMax : List Int → Int
  | [] => 0
  | a :: as => as.foldl max a

/-- `min_lag = min(np.min(lag), np.min(lag+cond_lag))`
(`_driver.py` line 91). -/
def minLagOf (lag : List Int) (cond_lag : Int) : Int :=
  min (npMin lag) (npMin (lag.map (· + cond_lag)))

/-- `max_lag = max(np.max(lag), np.max(lag+cond_lag))`
(`_driver.py` line 92). -/
def maxLagOf (lag : List Int) (cond_lag : Int) : Int :=
  max (npMax lag) (npMax (lag.map (· + cond_lag)))

/-- The windowed `x` slice of a task
(`_driver.py` line 175): `x[max_lag-lag : len(x)-lag+min(min_lag, 0)]`. -/
def xWindow (a : List Int) (lag maxl minl : Int) : List Int :=
  pySlice a (maxl - lag) ((a.length : Int) - lag + min minl 0)

/-- The windowed `y` slice of a task
(`_driver.py` line 177): `y[max_lag : len(y)+min(min_lag, 0)]`. -/
def yWindow (a : List Int) (maxl minl : Int) : List Int :=
  pySlice a maxl ((a.length : Int) + min minl 0)

/-- The windowed `cond` slice of a task (`_driver.py` line 189):
`cond[max_lag-(lag+cond_lag) : len(cond)-(lag+cond_lag)+min(min_lag, 0)]`. -/
def condWindow (c : List Int) (lag cond_lag maxl minl : Int) : List Int :=
  pySlice c (maxl - (lag + cond_lag))
    ((c.length : Int) - (lag + cond_lag) + min minl 0)

/-- The mask window of a task (`_driver.py` line 181):
`mask[max_lag : len(y)+min(min_lag, 0)]` (note: `len(y)`, not
`len(mask)`). -/
def maskWindow (m : List Bool) (ylen : Nat) (maxl minl : Int) : List Bool :=
  pySlice m maxl ((ylen : Int) + min minl 0)

/-- The parameter tuple of `_lagged_mi`, one per task
(`_driver.py` lines 104-109, 172). -/
structure MiParams where
  x : List Int
  y : List Int
  lag : Int
  max_lag : Int
  min_lag : Int
  k : Nat
  mask : Option (List Bool)
  cond : Option (List Int)
  cond_lag : Int
deriving DecidableEq, Repr

/-- `_lagged_mi` (`_driver.py` lines 170-193), parametric in the
estimators `est1 = _estimate_single_mi`, `est2 = _estimate_conditional_mi`
and their result type. -/
def lagged_mi {R : Type} (est1 : List Int → List Int → Nat → R)
    (est2 : List Int → List Int → List Int → Nat → R)
    (p : MiParams) : Except String R :=
  let xs := xWindow p.x p.lag p.max_lag p.min_lag
  let ys := yWindow p.y p.max_lag p.min_lag
  match p.mask with
  | none =>
    match p.cond with
    | none => .ok (est1 xs ys p.k)
    | some c =>
      .ok (est2 xs ys (condWindow c p.lag p.cond_lag p.max_lag p.min_lag) p.k)
  | some m =>
    let msub := maskWindow m p.y.length p.max_lag p.min_lag
    match boolIndex xs msub with
    | .error e => .error e
    | .ok xs1 =>
      match boolIndex ys msub with
      | .error e => .error e
      | .ok ys1 =>
        match p.cond with
        | none => .ok (est1 xs1 ys1 p.k)
        | some c =>
          match boolIndex (condWindow c p.lag p.cond_lag p.max_lag p.min_lag) msub with
          | .error e => .error e
          | .ok zs1 => .ok (est2 xs1 ys1 zs1 p.k)

/-- Modelled from the spec: the process-pool collaborator
(`concurrent.futures.ProcessPoolExecutor.map`, `_driver.py` lines
114-115) is outside the repository; per the boundary contract it maps a
pure function over independent inputs and returns the results
correlated to the inputs, i.e. in input order. -/
def parallelMap {A B : Type} (f : A → B) (l : List A) : List B :=
  l.map f

/-- Consuming the (lazy) stream of per-task results in the assembly
loop (`_driver.py` line 121): the first failing task aborts the whole
call, otherwise all values are collected in order. -/
def collectResults {R : Type} : List (Except String R) → Except String (List R)
  | [] => .ok []
  | .error e :: _ => .error e
  | .ok v :: rest =>
    match collectResults rest with
    | .error e => .error e
    | .ok vs => .ok (v :: vs)

/-- `itertools.product(range(len(lag)), range(nvar))`
(`_driver.py` line 105): lag-major, variable-minor. -/
def indicesOf (m n : Nat) : List (Nat × Nat) :=
  (List.range m).flatMap (fun i => (List.range n).map (fun j => (i, j)))

/-- The parameter tuple of the task at lag position `i`, variable
position `j` (`_driver.py` lines 107-109). -/
def taskParam (x : XData) (y : List Int) (lag : List Int) (k : Nat)
    (cond : Option (List Int)) (cond_lag : Int)
    (mask : Option (List MaskElem)) (maxl minl : Int)
    (i j : Nat) : MiParams :=
  ⟨x.col j, y, lag.getD i 0, maxl, minl, k, maskToBools mask, cond, cond_lag⟩

/-- The task parameter list (`_driver.py` lines 106-109): for 1-D `x`
a map over the lag values, for 2-D `x` a map over the index pairs
taking `x[:,i[1]]` and `lag[i[0]]`. -/
def paramsOf (x : XData) (y : List Int) (lag : List Int) (k : Nat)
    (cond : Option (List Int)) (cond_lag : Int)
    (mask : Option (List MaskElem)) (maxl minl : Int) : List MiParams :=
  match x with
  | .one v =>
    lag.map (fun L => ⟨v, y, L, maxl, minl, k, maskToBools mask, cond, cond_lag⟩)
  | .two _ =>
    (indicesOf lag.length x.nvar).map
      (fun ij => taskParam x y lag k cond cond_lag mask maxl minl ij.1 ij.2)

/-- `result[index] = res` for `index = (i, j)`
(`_driver.py` line 122). -/
def setCell {R : Type} (g : List (List R)) (i j : Nat) (v : R) :
    List (List R) :=
  g.set i ((g.getD i []).set j v)

/-- The result-assembly loop (`_driver.py` lines 121-122). -/
def scatter {R : Type} (g : List (List R)) (ps : List ((Nat × Nat) × R)) :
    List (List R) :=
  ps.foldl (fun acc p => setCell acc p.1.1 p.1.2 p.2) g

/-- `estimate_mi` after parameter validation (`_driver.py` lines
90-122): lag bounds, lag-range check, task enumeration, dispatch,
execution and result assembly.  `np.min` on an empty lag array raises,
hence the empty case errors.  The grid is allocated with `np.empty`;
`d0` stands for its unspecified initial cell contents. -/
def estimate_mi_checked {R : Type} (d0 : R)
    (est1 : List Int → List Int → Nat → R)
    (est2 : List Int → List Int → List Int → Nat → R)
    (y : List Int) (x : XData) (lag : List Int) (k : Nat)
    (cond : Option (List Int)) (cond_lag : Int)
    (mask : Option (List MaskElem)) (parallel : Option String) :
    Except String (List (List R)) :=
  match lag with
  | [] => .error "zero-size array to reduction operation minimum which has no identity"
  | _ :: _ =>
    let min_lag := minLagOf lag cond_lag
    let max_lag := maxLagOf lag cond_lag
    if max_lag - min_lag ≥ (y.length : Int) ∨ max_lag ≥ (y.length : Int) ∨
        min_lag ≤ -(y.length : Int) then
      .error "lag is too large, no observations left"
    else
      let indices := indicesOf lag.length x.nvar
      let params := paramsOf x y lag k cond cond_lag mask max_lag min_lag
      match should_be_parallel parallel indices y.length with
      | .error e => .error e
      | .ok par =>
        let conc_result :=
          if par then parallelMap (lagged_mi est1 est2) params
          else params.map (lagged_mi est1 est2)
        match collectResults conc_result with
        | .error e => .error e
        | .ok results =>
          .ok (scatter (List.replicate lag.length (List.replicate x.nvar d0))
                (indices.zip results))

/-- `estimate_mi` (`_driver.py` lines 12-132, computational part): the
scalar-lag normalization is reflected by taking `lag` as a list, and
the cosmetic pandas relabeling is out of scope.  Validation runs first;
any raised error aborts the call. -/
def estimate_mi {R : Type} (d0 : R)
    (est1 : List Int → List Int → Nat → R)
    (est2 : List Int → List Int → List Int → Nat → R)
    (y : List Int) (x : XData) (lag : List Int) (k : Nat)
    (cond : Option (List Int)) (cond_lag : Int)
    (mask : Option (List MaskElem)) (parallel : Option String) :
    Except String (List (List R)) :=
  match check_parameters x y k cond mask with
  | .error e => .error e
  | .ok _ => estimate_mi_checked d0 est1 est2 y x lag k cond cond_lag mask parallel

/-- An estimator that records the slices it receives; used to observe
the windows the driver computes. -/
def captureXY : List Int → List Int → Nat → List Int × List Int :=
  fun a b _ => (a, b)

/-- Conditional variant of `captureXY` (the conditioning slice is
dropped so both estimators share a result type). -/
def captureXYC : List Int → List Int → List Int → Nat → List Int × List Int :=
  fun a b _ _ => (a, b)

/-- An estimator recording only the slice lengths. -/
def captureLen : List Int → List Int → Nat → Nat × Nat :=
  fun a b _ => (a.length, b.length)

/-- Conditional variant of `captureLen` recording all three lengths. -/
def captureLenC : List Int → List Int → List Int → Nat → Nat × Nat :=
  fun a b _ _ => (a.length, b.length)

/-! ## Basic lemmas about slicing, masking and lag bounds -/

theorem pySlice_length (a : List α) (i j : Int)
    (h0 : 0 ≤ i) (hij : i ≤ j) (hj : j ≤ (a.length : Int)) :
    (pySlice a i j).length = (j - i).toNat := by
  unfold pySlice pyIndex
  have hi0 : ¬ i < 0 := by omega
  have hj0 : ¬ j < 0 := by omega
  simp only [if_neg hi0, if_neg hj0, List.length_drop, List.length_take]
  omega

theorem pySlice_replicate (n : Nat) (b : α) (i j : Int) :
    pySlice (List.replicate n b) i j =
      List.replicate (pySlice (List.replicate n b) i j).length b := by
  unfold pySlice
  simp only [List.length_replicate, List.take_replicate, List.drop_replicate,
    List.length_replicate]

theorem zip_replicate_true_filterMap (a : List α) :
    (a.zip (List.replicate a.length true)).filterMap
      (fun p => if p.2 then some p.1 else none) = a := by
  induction a with
  | nil => rfl
  | cons h t ih =>
    simp only [List.length_cons, List.replicate_succ, List.zip_cons_cons,
      List.filterMap_cons, if_true]
    rw [ih]

theorem boolIndex_all_true (a : List α) :
    boolIndex a (List.replicate a.length true) = .ok a := by
  unfold boolIndex
  rw [List.length_replicate, if_pos rfl, zip_replicate_true_filterMap]

theorem foldl_min_le_init (l : List Int) (x : Int) : l.foldl min x ≤ x := by
  induction l generalizing x with
  | nil => exact le_refl x
  | cons h t ih => exact le_trans (ih (min x h)) (min_le_left x h)

theorem foldl_min_le_mem (l : List Int) (x a : Int) (ha : a ∈ l) :
    l.foldl min x ≤ a := by
  induction l generalizing x with
  | nil => cases ha
  | cons h t ih =>
    rcases List.mem_cons.mp ha with rfl | ha
    · exact le_trans (foldl_min_le_init t (min x a)) (min_le_right x a)
    · exact ih (min x h) ha

theorem le_foldl_max_init (l : List Int) (x : Int) : x ≤ l.foldl max x := by
  induction l generalizing x with
  | nil => exact le_refl x
  | cons h t ih => exact le_trans (le_max_left x h) (ih (max x h))

theorem le_foldl_max_mem (l : List Int) (x a : Int) (ha : a ∈ l) :
    a ≤ l.foldl max x := by
  induction l generalizing x with
  | nil => cases ha
  | cons h t ih =>
    rcases List.mem_cons.mp ha with rfl | ha
    · exact le_trans (le_max_right x a) (le_foldl_max_init t (max x a))
    · exact ih (max x h) ha

theorem npMin_le_mem (l : List Int) (a : Int) (ha : a ∈ l) : npMin l ≤ a := by
  cases l with
  | nil => cases ha
  | cons h t =>
    rcases List.mem_cons.mp ha with rfl | ha
    · exact foldl_min_le_init t a
    · exact foldl_min_le_mem t h a ha

theorem le_npMax_mem (l : List Int) (a : Int) (ha : a ∈ l) : a ≤ npMax l := by
  cases l with
  | nil => cases ha
  | cons h t =>
    rcases List.mem_cons.mp ha with rfl | ha
    · exact le_foldl_max_init t a
    · exact le_foldl_max_mem t h a ha

theorem minLagOf_le_mem (lag : List Int) (cond_lag L : Int) (hL : L ∈ lag) :
    minLagOf lag cond_lag ≤ L :=
  le_trans (min_le_left _ _) (npMin_le_mem lag L hL)

theorem mem_le_maxLagOf (lag : List Int) (cond_lag L : Int) (hL : L ∈ lag) :
    L ≤ maxLagOf lag cond_lag :=
  le_trans (le_npMax_mem lag L hL) (le_max_left _ _)

theorem minLagOf_le_mem_cond (lag : List Int) (cond_lag L : Int) (hL : L ∈ lag) :
    minLagOf lag cond_lag ≤ L + cond_lag :=
  le_trans (min_le_right _ _)
    (npMin_le_mem _ (L + cond_lag) (List.mem_map.mpr ⟨L, hL, rfl⟩))

theorem mem_cond_le_maxLagOf (lag : List Int) (cond_lag L : Int) (hL : L ∈ lag) :
    L + cond_lag ≤ maxLagOf lag cond_lag :=
  le_trans (le_npMax_mem _ (L + cond_lag) (List.mem_map.mpr ⟨L, hL, rfl⟩))
    (le_max_right _ _)

/-! ## Window lengths under a passing lag-range check -/

theorem xWindow_length (a : List Int) (L maxl minl : Int)
    (hL1 : minl ≤ L) (hL2 : L ≤ maxl)
    (hmN : maxl < (a.length : Int)) (hd : maxl - minl < (a.length : Int)) :
    ((xWindow a L maxl minl).length : Int) =
      (a.length : Int) + min minl 0 - maxl := by
  unfold xWindow
  rw [pySlice_length]
  · omega
  · omega
  · omega
  · omega

theorem yWindow_length (a : List Int) (maxl minl : Int)
    (hm0 : 0 ≤ maxl)
    (hmN : maxl < (a.length : Int)) (hd : maxl - minl < (a.length : Int)) :
    ((yWindow a maxl minl).length : Int) =
      (a.length : Int) + min minl 0 - maxl := by
  unfold yWindow
  rw [pySlice_length]
  · omega
  · omega
  · omega
  · omega

theorem condWindow_eq_xWindow (c : List Int) (L cl maxl minl : Int) :
    condWindow c L cl maxl minl = xWindow c (L + cl) maxl minl := rfl

theorem maskWindow_all_true (n : Nat) (ylen : Nat) (maxl minl : Int)
    (hn : n = ylen) (hm0 : 0 ≤ maxl)
    (hmN : maxl < (ylen : Int)) (hd : maxl - minl < (ylen : Int)) :
    maskWindow (List.replicate n true) ylen maxl minl =
      List.replicate ((ylen : Int) + min minl 0 - maxl).toNat true := by
  subst hn
  unfold maskWindow
  rw [pySlice_replicate]
  congr 1
  rw [pySlice_length]
  all_goals (try simp only [List.length_replicate])
  all_goals omega

/-! ## Consequences of a passing parameter validation -/

theorem check_parameters_ok (x : XData) (y : List Int) (k : Nat)
    (cond : Option (List Int)) (mask : Option (List MaskElem))
    (h : check_parameters x y k cond mask = .ok ()) :
    x.shape0 = y.length ∧ (∀ c, cond = some c → c.length = y.length) ∧
      k < y.length := by
  unfold check_parameters at h
  split at h
  · cases h
  · split at h
    · cases h
    · split at h
      · cases h
      · rename_i h1 h2 h3
        refine ⟨by omega, ?_, by omega⟩
        intro c hc
        subst hc
        simp only [bne_iff_ne, ne_eq, Decidable.not_not] at h2
        omega

/-! ## Error-message characterizations -/

theorem boolIndex_error (a : List α) (m : List Bool) (e : String)
    (h : boolIndex a m = .error e) :
    e = "boolean index did not match indexed array" := by
  unfold boolIndex at h
  split at h
  · cases h
  · exact (Except.error.injEq _ _).mp h.symm

theorem lagged_mi_error {R : Type} (est1 : List Int → List Int → Nat → R)
    (est2 : List Int → List Int → List Int → Nat → R) (p : MiParams)
    (e : String) (h : lagged_mi est1 est2 p = .error e) :
    e = "boolean index did not match indexed array" := by
  obtain ⟨xv, yv, L, maxl, minl, k, mask, cond, cl⟩ := p
  cases mask with
  | none =>
    cases cond with
    | none => cases h
    | some c => cases h
  | some m =>
    dsimp only [lagged_mi] at h
    rcases hbx : boolIndex (xWindow xv L maxl minl)
        (maskWindow m yv.length maxl minl) with e1 | xs1 <;>
      rw [hbx] at h <;> dsimp only at h
    · exact boolIndex_error _ _ _ ((Except.error.injEq _ _).mp h ▸ hbx)
    · rcases hby : boolIndex (yWindow yv maxl minl)
          (maskWindow m yv.length maxl minl) with e2 | ys1 <;>
        rw [hby] at h <;> dsimp only at h
      · exact boolIndex_error _ _ _ ((Except.error.injEq _ _).mp h ▸ hby)
      · cases cond with
        | none => cases h
        | some c =>
          dsimp only at h
          rcases hbz : boolIndex (condWindow c L cl maxl minl)
              (maskWindow m yv.length maxl minl) with e3 | zs1 <;>
            rw [hbz] at h <;> dsimp only at h
          · exact boolIndex_error _ _ _ ((Except.error.injEq _ _).mp h ▸ hbz)
          · cases h

theorem should_be_parallel_error (p : Option String)
    (i : List (Nat × Nat)) (n : Nat) (e : String)
    (h : should_be_parallel p i n = .error e) :
    e = "unrecognized value for parallel argument" := by
  unfold should_be_parallel at h
  split at h
  · cases h
  · split at h
    · cases h
    · split at h
      · exact (Except.error.injEq _ _).mp h.symm
      · cases h

/-! ## Collecting per-task results -/

theorem collectResults_map_ok {R : Type} (l : List R) :
    collectResults (l.map Except.ok) = .ok l := by
  induction l with
  | nil => rfl
  | cons h t ih => simp only [List.map_cons, collectResults, ih]

theorem collectResults_error {R : Type} (l : List (Except String R))
    (e : String) (h : collectResults l = .error e) :
    ∃ r ∈ l, r = .error e := by
  induction l with
  | nil => cases h
  | cons a t ih =>
    cases a with
    | error e1 =>
      simp only [collectResults] at h
      exact ⟨.error e1, List.mem_cons_self _ _, by rw [(Except.error.injEq _ _).mp h]⟩
    | ok v =>
      simp only [collectResults] at h
      split at h
      · obtain ⟨r, hr, hre⟩ := ih ((Except.error.injEq _ _).mp h ▸ (by assumption))
        exact ⟨r, List.mem_cons_of_mem _ hr, hre⟩
      · cases h

/-! ## An all-true mask filters nothing (for tasks inside the valid lag range) -/

theorem lagged_mi_all_true {R : Type} (est1 : List Int → List Int → Nat → R)
    (est2 : List Int → List Int → List Int → Nat → R)
    (xv yv : List Int) (L maxl minl : Int) (k : Nat)
    (cond : Option (List Int)) (cl : Int)
    (hx : xv.length = yv.length)
    (hc : ∀ c, cond = some c → c.length = yv.length)
    (hL1 : minl ≤ L) (hL2 : L ≤ maxl)
    (hLc : ∀ c, cond = some c → minl ≤ L + cl ∧ L + cl ≤ maxl)
    (hm0 : 0 ≤ maxl) (hmN : maxl < (yv.length : Int))
    (hd : maxl - minl < (yv.length : Int)) :
    lagged_mi est1 est2 ⟨xv, yv, L, maxl, minl, k,
        some (List.replicate yv.length true), cond, cl⟩ =
      lagged_mi est1 est2 ⟨xv, yv, L, maxl, minl, k, none, cond, cl⟩ := by
  have hw := maskWindow_all_true yv.length yv.length maxl minl rfl hm0 hmN hd
  have hxlen : (xWindow xv L maxl minl).length =
      ((yv.length : Int) + min minl 0 - maxl).toNat := by
    have h1 := xWindow_length xv L maxl minl hL1 hL2 (by omega) (by omega)
    omega
  have hylen : (yWindow yv maxl minl).length =
      ((yv.length : Int) + min minl 0 - maxl).toNat := by
    have h1 := yWindow_length yv maxl minl hm0 hmN hd
    omega
  have hbx : boolIndex (xWindow xv L maxl minl)
      (List.replicate ((yv.length : Int) + min minl 0 - maxl).toNat true) =
      .ok (xWindow xv L maxl minl) := by
    rw [← hxlen]; exact boolIndex_all_true _
  have hby : boolIndex (yWindow yv maxl minl)
      (List.replicate ((yv.length : Int) + min minl 0 - maxl).toNat true) =
      .ok (yWindow yv maxl minl) := by
    rw [← hylen]; exact boolIndex_all_true _
  cases cond with
  | none =>
    dsimp only [lagged_mi]
    rw [hw, hbx, hby]
  | some c =>
    have hzlen : (condWindow c L cl maxl minl).length =
        ((yv.length : Int) + min minl 0 - maxl).toNat := by
      rw [condWindow_eq_xWindow]
      have hb := hLc c rfl
      have hclen := hc c rfl
      have h1 := xWindow_length c (L + cl) maxl minl hb.1 hb.2
        (by rw [hclen]; omega) (by rw [hclen]; omega)
      omega
    have hbz : boolIndex (condWindow c L cl maxl minl)
        (List.replicate ((yv.length : Int) + min minl 0 - maxl).toNat true) =
        .ok (condWindow c L cl maxl minl) := by
      rw [← hzlen]; exact boolIndex_all_true _
    dsimp only [lagged_mi]
    rw [hw, hbx, hby, hbz]

/-! ## List plumbing for the result assembler -/

theorem getD_append_lt {R : Type} (l l2 : List R) (i : Nat) (d : R)
    (h : i < l.length) : (l ++ l2).getD i d = l.getD i d := by
  induction l generalizing i with
  | nil => cases h
  | cons a t ih =>
    cases i with
    | zero => rfl
    | succ i =>
      simp only [List.cons_append, List.getD_cons_succ]
      exact ih i (by simpa using h)

theorem getD_append_len {R : Type} (l l2 : List R) (d : R) :
    (l ++ l2).getD l.length d = l2.getD 0 d := by
  induction l with
  | nil => rfl
  | cons a t ih => simpa using ih

theorem set_append_lt {R : Type} (l l2 : List R) (i : Nat) (v : R)
    (h : i < l.length) : (l ++ l2).set i v = l.set i v ++ l2 := by
  induction l generalizing i with
  | nil => cases h
  | cons a t ih =>
    cases i with
    | zero => rfl
    | succ i =>
      simp only [List.cons_append, List.set_cons_succ]
      rw [ih i (by simpa using h)]

theorem set_append_len {R : Type} (l l2 : List R) (v : R) :
    (l ++ l2).set l.length v = l ++ l2.set 0 v := by
  induction l with
  | nil => rfl
  | cons a t ih =>
    simp only [List.cons_append, List.length_cons, List.set_cons_succ]
    rw [ih]

theorem setCell_length {R : Type} (g : List (List R)) (i j : Nat) (v : R) :
    (setCell g i j v).length = g.length := by
  unfold setCell
  exact List.length_set g i _

theorem scatter_append {R : Type} (g : List (List R))
    (ps qs : List ((Nat × Nat) × R)) :
    scatter g (ps ++ qs) = scatter (scatter g ps) qs :=
  List.foldl_append _ _ _ _

theorem scatter_push_right {R : Type} (g : List (List R)) (r : List R)
    (ps : List ((Nat × Nat) × R)) (hps : ∀ p ∈ ps, p.1.1 < g.length) :
    scatter (g ++ [r]) ps = scatter g ps ++ [r] := by
  induction ps generalizing g with
  | nil => rfl
  | cons p t ih =>
    have hp : p.1.1 < g.length := hps p (List.mem_cons_self _ _)
    have hcell : setCell (g ++ [r]) p.1.1 p.1.2 p.2 =
        setCell g p.1.1 p.1.2 p.2 ++ [r] := by
      unfold setCell
      rw [getD_append_lt _ _ _ _ hp, set_append_lt _ _ _ _ hp]
    show scatter (setCell (g ++ [r]) p.1.1 p.1.2 p.2) t =
      scatter (setCell g p.1.1 p.1.2 p.2) t ++ [r]
    rw [hcell]
    exact ih _ (fun q hq => by
      rw [setCell_length]
      exact hps q (List.mem_cons_of_mem _ hq))

theorem scatter_row {R : Type} (js : List Nat) (A : List (List R))
    (row : List R) (h : Nat → R) :
    scatter (A ++ [row]) (js.map (fun j => ((A.length, j), h j))) =
      A ++ [js.foldl (fun r j => r.set j (h j)) row] := by
  induction js generalizing row with
  | nil => rfl
  | cons j0 t ih =>
    have hcell : setCell (A ++ [row]) A.length j0 (h j0) =
        A ++ [row.set j0 (h j0)] := by
      unfold setCell
      rw [getD_append_len, set_append_len]
      rfl
    show scatter (setCell (A ++ [row]) A.length j0 (h j0))
        (t.map (fun j => ((A.length, j), h j))) = _
    rw [hcell, ih]
    rfl

theorem drop_cons_getD {R : Type} (l : List R) (k : Nat) (d : R)
    (h : k < l.length) : l.drop k = l.getD k d :: l.drop (k + 1) := by
  induction l generalizing k with
  | nil => cases h
  | cons a t ih =>
    cases k with
    | zero => rfl
    | succ k =>
      simp only [List.drop_succ_cons, List.getD_cons_succ]
      exact ih k (by simpa using h)

theorem rowScatter_range {R : Type} (k : Nat) (row : List R) (h : Nat → R)
    (hk : k ≤ row.length) :
    (List.range k).foldl (fun r j => r.set j (h j)) row =
      (List.range k).map h ++ row.drop k := by
  induction k with
  | zero => simp
  | succ k ih =>
    rw [List.range_succ, List.foldl_append, ih (by omega)]
    simp only [List.foldl_cons, List.foldl_nil]
    have hlen : ((List.range k).map h).length = k := by simp
    have hset := set_append_len ((List.range k).map h) (row.drop k) (h k)
    rw [hlen] at hset
    rw [hset, drop_cons_getD row k (h k) (by omega)]
    simp only [List.set_cons_zero]
    simp

theorem rowScatter_full {R : Type} (n : Nat) (d : R) (h : Nat → R) :
    (List.range n).foldl (fun r j => r.set j (h j)) (List.replicate n d) =
      (List.range n).map h := by
  rw [rowScatter_range n _ h (by simp)]
  simp

/-! ## The enumeration of (lag, variable) index pairs -/

theorem indicesOf_succ (m n : Nat) :
    indicesOf (m + 1) n =
      indicesOf m n ++ (List.range n).map (fun j => (m, j)) := by
  unfold indicesOf
  rw [List.range_succ, List.flatMap_append]
  simp

theorem mem_indicesOf (m n : Nat) (ij : Nat × Nat) :
    ij ∈ indicesOf m n ↔ ij.1 < m ∧ ij.2 < n := by
  unfold indicesOf
  simp only [List.mem_flatMap, List.mem_map, List.mem_range]
  constructor
  · rintro ⟨i, hi, j, hj, rfl⟩
    exact ⟨hi, hj⟩
  · rintro ⟨h1, h2⟩
    exact ⟨ij.1, h1, ij.2, h2, rfl⟩

theorem indicesOf_one (m : Nat) :
    indicesOf m 1 = (List.range m).map (fun i => (i, 0)) := by
  unfold indicesOf
  induction m with
  | zero => rfl
  | succ m ih =>
    rw [List.range_succ, List.flatMap_append, List.map_append, ih]
    rfl

theorem map_eq_range_map {A B : Type} (l : List A) (f : A → B) (d : A) :
    l.map f = (List.range l.length).map (fun i => f (l.getD i d)) := by
  induction l with
  | nil => rfl
  | cons a t ih =>
    simp only [List.map_cons, List.length_cons, List.range_succ_eq_map,
      List.map_map]
    rw [ih]
    rfl

theorem zip_self_map {A B : Type} (l : List A) (f : A → B) :
    l.zip (l.map f) = l.map (fun a => (a, f a)) := by
  induction l with
  | nil => rfl
  | cons a t ih => simp only [List.map_cons, List.zip_cons_cons, ih]

/-! ## The assembled grid is the lag-major table of per-task results -/

theorem scatter_grid {R : Type} (m n : Nat) (d : R) (h : Nat → Nat → R) :
    scatter (List.replicate m (List.replicate n d))
        ((indicesOf m n).map (fun ij => (ij, h ij.1 ij.2))) =
      (List.range m).map (fun i => (List.range n).map (h i)) := by
  induction m with
  | zero => rfl
  | succ m ih =>
    rw [indicesOf_succ, List.map_append, scatter_append, List.replicate_succ']
    rw [scatter_push_right _ _ _ (fun p hp => by
      obtain ⟨ij, hij, rfl⟩ := List.mem_map.mp hp
      have := (mem_indicesOf m n ij).mp hij
      simp only [List.length_replicate]
      exact this.1)]
    rw [ih, List.map_map]
    have hfun : ((fun ij => (ij, h ij.1 ij.2)) ∘ (fun j => (m, j)) :
        Nat → (Nat × Nat) × R) = fun j => ((m, j), h m j) := rfl
    rw [hfun]
    have hrow := scatter_row (List.range n)
      ((List.range m).map (fun i => (List.range n).map (h i)))
      (List.replicate n d) (h m)
    simp only [List.length_map, List.length_range] at hrow
    rw [hrow, rowScatter_full]
    rw [List.range_succ, List.map_append]
    rfl

/-! ## The task list is the index-pair list mapped through `taskParam` -/

theorem paramsOf_eq (x : XData) (y : List Int) (lag : List Int) (k : Nat)
    (cond : Option (List Int)) (cond_lag : Int)
    (mask : Option (List MaskElem)) (maxl minl : Int) :
    paramsOf x y lag k cond cond_lag mask maxl minl =
      (indicesOf lag.length x.nvar).map
        (fun ij => taskParam x y lag k cond cond_lag mask maxl minl ij.1 ij.2) := by
  cases x with
  | two rows => rfl
  | one v =>
    unfold paramsOf
    rw [show (XData.one v).nvar = 1 from rfl, indicesOf_one, List.map_map]
    dsimp only
    rw [map_eq_range_map lag _ 0]
    rfl

/-! ## Success-path characterization of the whole call -/

/-- C4: on every successful call, the output is a grid with one row
per lag value and one column per variable (`nvar = 1` for 1-D `x`,
else the column count), and the cell at row `i`, column `j` holds
exactly the per-task estimate for lag `lag[i]` and variable column
`j`, the tasks being enumerated lag-major, variable-minor. -/
theorem C4_grid_assembly {R : Type} (d0 : R)
    (est1 : List Int → List Int → Nat → R)
    (est2 : List Int → List Int → List Int → Nat → R)
    (y : List Int) (x : XData) (lag : List Int) (k : Nat)
    (cond : Option (List Int)) (cond_lag : Int)
    (mask : Option (List MaskElem)) (parallel : Option String)
    (f : Nat → Nat → R) (b : Bool)
    (hck : check_parameters x y k cond mask = .ok ())
    (hlag : lag ≠ [])
    (hrange : ¬(maxLagOf lag cond_lag - minLagOf lag cond_lag ≥ (y.length : Int) ∨
      maxLagOf lag cond_lag ≥ (y.length : Int) ∨
      minLagOf lag cond_lag ≤ -(y.length : Int)))
    (hpar : should_be_parallel parallel (indicesOf lag.length x.nvar) y.length =
      .ok b)
    (htask : ∀ i j, i < lag.length → j < x.nvar →
      lagged_mi est1 est2 (taskParam x y lag k cond cond_lag mask
        (maxLagOf lag cond_lag) (minLagOf lag cond_lag) i j) = .ok (f i j)) :
    estimate_mi d0 est1 est2 y x lag k cond cond_lag mask parallel =
      .ok ((List.range lag.length).map
        (fun i => (List.range x.nvar).map (f i))) := by
  obtain ⟨l0, rest, rfl⟩ : ∃ a as, lag = a :: as := by
    cases lag with
    | nil => exact absurd rfl hlag
    | cons a as => exact ⟨a, as, rfl⟩
  unfold estimate_mi
  rw [hck]
  unfold estimate_mi_checked
  dsimp only
  rw [if_neg hrange, hpar]
  dsimp only
  have hmap : (paramsOf x y (l0 :: rest) k cond cond_lag mask
        (maxLagOf (l0 :: rest) cond_lag) (minLagOf (l0 :: rest) cond_lag)).map
        (lagged_mi est1 est2) =
      ((indicesOf (l0 :: rest).length x.nvar).map
        (fun ij => f ij.1 ij.2)).map Except.ok := by
    rw [paramsOf_eq, List.map_map, List.map_map]
    refine List.map_congr_left (fun ij hij => ?_)
    have hb := (mem_indicesOf _ _ ij).mp hij
    exact htask ij.1 ij.2 hb.1 hb.2
  have hrun : (if b then
        parallelMap (lagged_mi est1 est2)
          (paramsOf x y (l0 :: rest) k cond cond_lag mask
            (maxLagOf (l0 :: rest) cond_lag) (minLagOf (l0 :: rest) cond_lag))
      else
        (paramsOf x y (l0 :: rest) k cond cond_lag mask
          (maxLagOf (l0 :: rest) cond_lag)
          (minLagOf (l0 :: rest) cond_lag)).map (lagged_mi est1 est2)) =
      ((indicesOf (l0 :: rest).length x.nvar).map
        (fun ij => f ij.1 ij.2)).map Except.ok := by
    cases b with
    | true => exact hmap
    | false => exact hmap
  rw [hrun, collectResults_map_ok]
  dsimp only
  rw [zip_self_map, scatter_grid]

/-! ## Claims -/

/-- C1: for every task, the windowed `x` slice is taken from index
`max_lag − L` to index `N − L + min(min_lag, 0)` of `x`, where `L` is
the task's lag (and `L = lag + cond_lag` for the conditioning series),
while the `y` slice is always taken from index `max_lag` to
`N + min(min_lag, 0)`, independent of the task's lag; and for
`y = x = [1,2,3,4,5]`, `lag = 1`, `k = 1`, no cond and no mask, the
aligned slices are `xs = [1,2,3,4]`, `ys = [2,3,4,5]` and the output
grid has shape (1,1). -/
theorem C1_window_slices :
    (∀ (R : Type) (est1 : List Int → List Int → Nat → R)
      (est2 : List Int → List Int → List Int → Nat → R)
      (xv yv : List Int) (L maxl minl : Int) (k : Nat) (cl : Int),
      lagged_mi est1 est2 ⟨xv, yv, L, maxl, minl, k, none, none, cl⟩ =
        .ok (est1
          (pySlice xv (maxl - L) ((xv.length : Int) - L + min minl 0))
          (pySlice yv maxl ((yv.length : Int) + min minl 0)) k)) ∧
    (∀ (R : Type) (est1 : List Int → List Int → Nat → R)
      (est2 : List Int → List Int → List Int → Nat → R)
      (xv yv c : List Int) (L maxl minl : Int) (k : Nat) (cl : Int),
      lagged_mi est1 est2 ⟨xv, yv, L, maxl, minl, k, none, some c, cl⟩ =
        .ok (est2
          (pySlice xv (maxl - L) ((xv.length : Int) - L + min minl 0))
          (pySlice yv maxl ((yv.length : Int) + min minl 0))
          (pySlice c (maxl - (L + cl)) ((c.length : Int) - (L + cl) + min minl 0))
          k)) ∧
    estimate_mi ([], []) captureXY captureXYC [1, 2, 3, 4, 5]
        (.one [1, 2, 3, 4, 5]) [1] 1 none 0 none none =
      .ok [[([1, 2, 3, 4], [2, 3, 4, 5])]] :=
  ⟨fun _ _ _ _ _ _ _ _ _ _ => rfl, fun _ _ _ _ _ _ _ _ _ _ _ => rfl, rfl⟩

/-- C3: the claim that a single negative lag `L` (|L| < N) yields an
`x` window starting |L| steps later than the `y` window with both of
length `N − |L|` is violated by the code: at `y = x = [1,2,3,4,5]`,
`lag = −1`, `k = 1`, the code's `y` window `y[-1:4]` is empty (Python
treats the negative start index `max_lag = −1` as `N − 1`), while the
`x` window is the full series — contradicting the driver's own
documentation that lags "may be any integers with magnitude less than
the number of observations" under the relation `y(t+lag) ~ x(t)`. -/
theorem C3_code_eval :
    estimate_mi ([], []) captureXY captureXYC [1, 2, 3, 4, 5]
        (.one [1, 2, 3, 4, 5]) [-1] 1 none 0 none none =
      .ok [[([1, 2, 3, 4, 5], ([] : List Int))]] := rfl

/-- C10: a non-zero `cond_lag` enters `min_lag`/`max_lag` even when
`cond` is absent: with `y = x = [1,2,3,4,5]`, `lag = [0]`, `k = 1`,
`cond = None`, setting `cond_lag = 2` shrinks both windows to
`[3,4,5]` whereas `cond_lag = 0` leaves them full; and with
`lag = [1]`, `cond_lag = 4` the call is rejected by the lag-range
check although `cond_lag = 0` succeeds. -/
theorem C10_cond_lag_effect :
    estimate_mi ([], []) captureXY captureXYC [1, 2, 3, 4, 5]
        (.one [1, 2, 3, 4, 5]) [0] 1 none 2 none none =
      .ok [[([3, 4, 5], [3, 4, 5])]] ∧
    estimate_mi ([], []) captureXY captureXYC [1, 2, 3, 4, 5]
        (.one [1, 2, 3, 4, 5]) [0] 1 none 0 none none =
      .ok [[([1, 2, 3, 4, 5], [1, 2, 3, 4, 5])]] ∧
    estimate_mi ([], []) captureXY captureXYC [1, 2, 3, 4, 5]
        (.one [1, 2, 3, 4, 5]) [1] 1 none 4 none none =
      .error "lag is too large, no observations left" ∧
    estimate_mi ([], []) captureXY captureXYC [1, 2, 3, 4, 5]
        (.one [1, 2, 3, 4, 5]) [1] 1 none 0 none none =
      .ok [[([1, 2, 3, 4], [2, 3, 4, 5])]] :=
  ⟨rfl, rfl, rfl, rfl⟩

/-- C9: for every input, the result under `parallel="always"` equals
the result under `parallel="disable"`: the dispatch choice only selects
how the same per-task function is mapped over the same task list, and
the association of results to (lag, variable) cells is identical. -/
theorem C9_parallel_equiv (R : Type) (d0 : R)
    (est1 : List Int → List Int → Nat → R)
    (est2 : List Int → List Int → List Int → Nat → R)
    (y : List Int) (x : XData) (lag : List Int) (k : Nat)
    (cond : Option (List Int)) (cond_lag : Int)
    (mask : Option (List MaskElem)) :
    estimate_mi d0 est1 est2 y x lag k cond cond_lag mask (some "always") =
      estimate_mi d0 est1 est2 y x lag k cond cond_lag mask (some "disable") := by
  unfold estimate_mi
  cases check_parameters x y k cond mask with
  | error e => rfl
  | ok u =>
    unfold estimate_mi_checked
    cases lag with
    | nil => rfl
    | cons l0 rest =>
      dsimp only
      split
      · rfl
      · have h1 : should_be_parallel (some "always")
            (indicesOf (l0 :: rest).length x.nvar) y.length = .ok true := rfl
        have h2 : should_be_parallel (some "disable")
            (indicesOf (l0 :: rest).length x.nvar) y.length = .ok false := rfl
        rw [h1, h2]
        dsimp only [parallelMap]
        rfl

theorem should_be_parallel_invalid (s : String) (idx : List (Nat × Nat))
    (n : Nat) (h1 : s ≠ "always") (h2 : s ≠ "disable") :
    should_be_parallel (some s) idx n =
      .error "unrecognized value for parallel argument" := by
  unfold should_be_parallel
  rw [if_neg (by simp [h1]), if_neg (by simp [h2])]

/-- C7: the dispatch decision: override "always" is parallel,
"disable" is sequential, any other non-absent value fails with an
"unrecognized value" error before any task runs (the whole call errors
independently of the estimators), and an absent override is parallel
iff more than one task is enumerated and `len(y) > 200`. -/
theorem C7_dispatch :
    (∀ (idx : List (Nat × Nat)) (n : Nat),
      should_be_parallel (some "always") idx n = .ok true) ∧
    (∀ (idx : List (Nat × Nat)) (n : Nat),
      should_be_parallel (some "disable") idx n = .ok false) ∧
    (∀ (s : String) (idx : List (Nat × Nat)) (n : Nat),
      s ≠ "always" → s ≠ "disable" →
      should_be_parallel (some s) idx n =
        .error "unrecognized value for parallel argument") ∧
    (∀ (idx : List (Nat × Nat)) (n : Nat),
      should_be_parallel none idx n =
        .ok (decide (idx.length > 1) && decide (n > 200))) ∧
    (∀ (R : Type) (d0 : R) (est1 : List Int → List Int → Nat → R)
      (est2 : List Int → List Int → List Int → Nat → R)
      (y : List Int) (x : XData) (lag : List Int) (k : Nat)
      (cond : Option (List Int)) (cond_lag : Int)
      (mask : Option (List MaskElem)) (s : String),
      s ≠ "always" → s ≠ "disable" →
      check_parameters x y k cond mask = .ok () → lag ≠ [] →
      ¬(maxLagOf lag cond_lag - minLagOf lag cond_lag ≥ (y.length : Int) ∨
        maxLagOf lag cond_lag ≥ (y.length : Int) ∨
        minLagOf lag cond_lag ≤ -(y.length : Int)) →
      estimate_mi d0 est1 est2 y x lag k cond cond_lag mask (some s) =
        .error "unrecognized value for parallel argument") := by
  refine ⟨fun idx n => rfl, fun idx n => rfl,
    should_be_parallel_invalid, fun idx n => rfl, ?_⟩
  intro R d0 est1 est2 y x lag k cond cond_lag mask s hs1 hs2 hck hlag hrange
  obtain ⟨l0, rest, rfl⟩ : ∃ a as, lag = a :: as := by
    cases lag with
    | nil => exact absurd rfl hlag
    | cons a as => exact ⟨a, as, rfl⟩
  unfold estimate_mi
  rw [hck]
  unfold estimate_mi_checked
  dsimp only
  rw [if_neg hrange, should_be_parallel_invalid s _ _ hs1 hs2]

/-- Witness for C7: the theorem applied at concrete inputs. -/
theorem C7_dispatch_witness :
    should_be_parallel (some "sometimes") [] 0 =
      .error "unrecognized value for parallel argument" ∧
    estimate_mi (0 : Int) (fun _ _ _ => 0) (fun _ _ _ _ => 0)
        [1, 2, 3, 4, 5] (.one [1, 2, 3, 4, 5]) [1] 1 none 0 none
        (some "sometimes") =
      .error "unrecognized value for parallel argument" :=
  ⟨C7_dispatch.2.2.1 "sometimes" [] 0 (by decide) (by decide),
   C7_dispatch.2.2.2.2 Int 0 (fun _ _ _ => 0) (fun _ _ _ _ => 0)
     [1, 2, 3, 4, 5] (.one [1, 2, 3, 4, 5]) [1] 1 none 0 none "sometimes"
     (by decide) (by decide) rfl (by decide) (by decide)⟩

/-- C5: the validator fails exactly when x's first dimension differs
from `len(y)`, or `cond` is present with a different length, or the
observation count is at most `k`, or a mask is present whose length
differs from `len(y)` or which is not purely boolean; on success it
returns unit (no other effect is possible), and when it fails the
whole call returns that very error regardless of the estimators, so no
task runs first. -/
theorem C5_validator (x : XData) (y : List Int) (k : Nat)
    (cond : Option (List Int)) (mask : Option (List MaskElem)) :
    ((∃ e, check_parameters x y k cond mask = .error e) ↔
      (x.shape0 ≠ y.length ∨
       (∃ c, cond = some c ∧ c.length ≠ y.length) ∨
       x.shape0 ≤ k ∨
       (∃ m, mask = some m ∧ (m.length ≠ y.length ∨ ¬ isBoolDtype m)))) ∧
    (∀ e, check_parameters x y k cond mask = .error e →
      ∀ (R : Type) (d0 : R) (est1 : List Int → List Int → Nat → R)
        (est2 : List Int → List Int → List Int → Nat → R)
        (lag : List Int) (cond_lag : Int) (parallel : Option String),
        estimate_mi d0 est1 est2 y x lag k cond cond_lag mask parallel =
          .error e) := by
  constructor
  · unfold check_parameters
    cases cond <;> cases mask <;> split_ifs <;>
      simp_all [bne_iff_ne] <;>
      first
      | omega
      | (split_ifs <;> simp_all)
  · intro e h R d0 est1 est2 lag cond_lag parallel
    unfold estimate_mi
    rw [h]

/-- Witness for C5: a length mismatch is rejected, and the whole call
returns the validator's error. -/
theorem C5_validator_witness :
    estimate_mi (0 : Int) (fun _ _ _ => 0) (fun _ _ _ _ => 0) [1, 2, 3]
        (.one [1, 2, 3, 4]) [0] 1 none 0 none none =
      .error "x and y must have same length" :=
  (C5_validator (.one [1, 2, 3, 4]) [1, 2, 3] 1 none none).2
    "x and y must have same length" rfl Int 0
    (fun _ _ _ => 0) (fun _ _ _ _ => 0) [0] 0 none

/-- C6: after validation, the call is rejected with the lag-range
error exactly when the invariant
`max_lag − min_lag < N ∧ max_lag < N ∧ min_lag > −N` fails (with the
bounds taken over all lags and all lags + cond_lag); in particular a
single lag of magnitude at least `N` always fails, before any task
(and hence any estimator) runs. -/
theorem C6_lag_range :
    (∀ (R : Type) (d0 : R) (est1 : List Int → List Int → Nat → R)
      (est2 : List Int → List Int → List Int → Nat → R)
      (y : List Int) (x : XData) (lag : List Int) (k : Nat)
      (cond : Option (List Int)) (cond_lag : Int)
      (mask : Option (List MaskElem)) (parallel : Option String),
      check_parameters x y k cond mask = .ok () → lag ≠ [] →
      (estimate_mi d0 est1 est2 y x lag k cond cond_lag mask parallel =
          .error "lag is too large, no observations left" ↔
        ¬(maxLagOf lag cond_lag - minLagOf lag cond_lag < (y.length : Int) ∧
          maxLagOf lag cond_lag < (y.length : Int) ∧
          -(y.length : Int) < minLagOf lag cond_lag))) ∧
    (∀ (R : Type) (d0 : R) (est1 : List Int → List Int → Nat → R)
      (est2 : List Int → List Int → List Int → Nat → R)
      (y : List Int) (x : XData) (L : Int) (k : Nat)
      (cond : Option (List Int)) (cond_lag : Int)
      (mask : Option (List MaskElem)) (parallel : Option String),
      check_parameters x y k cond mask = .ok () →
      (y.length : Int) ≤ (L.natAbs : Int) →
      estimate_mi d0 est1 est2 y x [L] k cond cond_lag mask parallel =
        .error "lag is too large, no observations left") := by
  constructor
  · intro R d0 est1 est2 y x lag k cond cond_lag mask parallel hck hlag
    obtain ⟨l0, rest, rfl⟩ : ∃ a as, lag = a :: as := by
      cases lag with
      | nil => exact absurd rfl hlag
      | cons a as => exact ⟨a, as, rfl⟩
    unfold estimate_mi
    rw [hck]
    unfold estimate_mi_checked
    dsimp only
    by_cases hC : (maxLagOf (l0 :: rest) cond_lag -
        minLagOf (l0 :: rest) cond_lag ≥ (y.length : Int) ∨
      maxLagOf (l0 :: rest) cond_lag ≥ (y.length : Int) ∨
      minLagOf (l0 :: rest) cond_lag ≤ -(y.length : Int))
    · rw [if_pos hC]
      exact iff_of_true rfl (by omega)
    · rw [if_neg hC]
      refine iff_of_false ?_ (fun hcon => hcon (by omega))
      rcases hsp : should_be_parallel parallel
          (indicesOf (l0 :: rest).length x.nvar) y.length with e | b <;>
        dsimp only
      · intro h
        have he := should_be_parallel_error _ _ _ _ hsp
        have : e = "lag is too large, no observations left" :=
          (Except.error.injEq _ _).mp h
        rw [he] at this
        exact absurd this (by decide)
      · have hif : (if b then
              parallelMap (lagged_mi est1 est2)
                (paramsOf x y (l0 :: rest) k cond cond_lag mask
                  (maxLagOf (l0 :: rest) cond_lag)
                  (minLagOf (l0 :: rest) cond_lag))
            else
              (paramsOf x y (l0 :: rest) k cond cond_lag mask
                (maxLagOf (l0 :: rest) cond_lag)
                (minLagOf (l0 :: rest) cond_lag)).map
                (lagged_mi est1 est2)) =
            (paramsOf x y (l0 :: rest) k cond cond_lag mask
              (maxLagOf (l0 :: rest) cond_lag)
              (minLagOf (l0 :: rest) cond_lag)).map (lagged_mi est1 est2) := by
          cases b <;> rfl
        rw [hif]
        rcases hcr : collectResults
            ((paramsOf x y (l0 :: rest) k cond cond_lag mask
              (maxLagOf (l0 :: rest) cond_lag)
              (minLagOf (l0 :: rest) cond_lag)).map
              (lagged_mi est1 est2)) with e | results <;>
          dsimp only
        · intro h
          obtain ⟨r, hr, hre⟩ := collectResults_error _ _ hcr
          obtain ⟨p, hp, rfl⟩ := List.mem_map.mp hr
          have he := lagged_mi_error _ _ _ _ hre
          have : e = "lag is too large, no observations left" :=
            (Except.error.injEq _ _).mp h
          rw [he] at this
          exact absurd this (by decide)
        · intro h
          exact Except.noConfusion h
  · intro R d0 est1 est2 y x L k cond cond_lag mask parallel hck hL
    unfold estimate_mi
    rw [hck]
    unfold estimate_mi_checked
    dsimp only
    rw [if_pos ?_]
    have h1 : maxLagOf [L] cond_lag = max L (L + cond_lag) := rfl
    have h2 : minLagOf [L] cond_lag = min L (L + cond_lag) := rfl
    have hk := (check_parameters_ok x y k cond mask hck).2.2
    rw [h1, h2]
    omega

/-- Witness for C6: a lag equal to the series length is rejected. -/
theorem C6_lag_range_witness :
    estimate_mi (0 : Int) (fun _ _ _ => 0) (fun _ _ _ _ => 0)
        [1, 2, 3, 4, 5] (.one [1, 2, 3, 4, 5]) [5] 1 none 0 none none =
      .error "lag is too large, no observations left" :=
  C6_lag_range.2 Int 0 (fun _ _ _ => 0) (fun _ _ _ _ => 0)
    [1, 2, 3, 4, 5] (.one [1, 2, 3, 4, 5]) 5 1 none 0 none none
    rfl (by decide)

theorem XData.col_length (x : XData) (j : Nat) :
    (x.col j).length = x.shape0 := by
  cases x with
  | one v => rfl
  | two rows => exact List.length_map rows _

theorem getD_mem (l : List Int) (i : Nat) (d : Int) (h : i < l.length) :
    l.getD i d ∈ l := by
  induction l generalizing i with
  | nil => cases h
  | cons a t ih =>
    cases i with
    | zero => exact List.mem_cons_self _ _
    | succ i =>
      exact List.mem_cons_of_mem _ (ih i (by simpa using h))

/-- C2 counterexample: with `y = x = [1,2,3,4,5]`, `lag = [1,2]`,
`k = 1`, no cond and no mask, validation and the lag-range check pass
and every windowed slice has length 3, yet
`N − (max_lag − min_lag) = 5 − (2 − 1) = 4`: the claimed length
formula is wrong when `min_lag > 0`. -/
theorem C2_counterexample :
    check_parameters (.one [1, 2, 3, 4, 5]) [1, 2, 3, 4, 5] 1 none none =
      .ok () ∧
    maxLagOf [1, 2] 0 - minLagOf [1, 2] 0 < (5 : Int) ∧
    maxLagOf [1, 2] 0 < (5 : Int) ∧ (-5 : Int) < minLagOf [1, 2] 0 ∧
    estimate_mi (0, 0) captureLen captureLenC [1, 2, 3, 4, 5]
        (.one [1, 2, 3, 4, 5]) [1, 2] 1 none 0 none none =
      .ok [[(3, 3)], [(3, 3)]] ∧
    (3 : Int) ≠ 5 - (maxLagOf [1, 2] 0 - minLagOf [1, 2] 0) :=
  ⟨rfl, by decide, by decide, by decide, rfl, by decide⟩

/-- C2 amended: for every call that passes validation and the
lag-range check and additionally has `max_lag ≥ 0`, the windowed
slices of `x`, `y` and (when present) `cond` of every task share the
length `N − max_lag + min(min_lag, 0)` (which equals
`N − (max_lag − min_lag)` exactly when `min_lag ≤ 0`).  When
`max_lag < 0` the `y` slice is empty while the `x` slice is not, and
when `min_lag > 0` the common length is `N − max_lag` instead of the
claimed `N − (max_lag − min_lag)`. -/
theorem C2_amended_window_lengths (y : List Int) (x : XData)
    (lag : List Int) (k : Nat) (cond : Option (List Int)) (cond_lag : Int)
    (mask : Option (List MaskElem)) (i j : Nat)
    (hck : check_parameters x y k cond mask = .ok ())
    (hd : maxLagOf lag cond_lag - minLagOf lag cond_lag < (y.length : Int))
    (hmN : maxLagOf lag cond_lag < (y.length : Int))
    (hmin : -(y.length : Int) < minLagOf lag cond_lag)
    (hm0 : 0 ≤ maxLagOf lag cond_lag)
    (hi : i < lag.length) (hj : j < x.nvar) :
    ((xWindow (x.col j) (lag.getD i 0) (maxLagOf lag cond_lag)
        (minLagOf lag cond_lag)).length : Int) =
      (y.length : Int) + min (minLagOf lag cond_lag) 0 -
        maxLagOf lag cond_lag ∧
    ((yWindow y (maxLagOf lag cond_lag) (minLagOf lag cond_lag)).length :
        Int) =
      (y.length : Int) + min (minLagOf lag cond_lag) 0 -
        maxLagOf lag cond_lag ∧
    (∀ c, cond = some c →
      ((condWindow c (lag.getD i 0) cond_lag (maxLagOf lag cond_lag)
          (minLagOf lag cond_lag)).length : Int) =
        (y.length : Int) + min (minLagOf lag cond_lag) 0 -
          maxLagOf lag cond_lag) := by
  obtain ⟨hs0, hcnd, hk⟩ := check_parameters_ok x y k cond mask hck
  have hmem : lag.getD i 0 ∈ lag := getD_mem lag i 0 hi
  have hL1 := minLagOf_le_mem lag cond_lag _ hmem
  have hL2 := mem_le_maxLagOf lag cond_lag _ hmem
  have hxl : ((x.col j).length : Int) = (y.length : Int) := by
    rw [XData.col_length, hs0]
  refine ⟨?_, ?_, ?_⟩
  · have h1 := xWindow_length (x.col j) (lag.getD i 0) (maxLagOf lag cond_lag)
      (minLagOf lag cond_lag) hL1 hL2 (by omega) (by omega)
    omega
  · exact yWindow_length y _ _ hm0 hmN hd
  · intro c hc
    have hcl := hcnd c hc
    have hb1 := minLagOf_le_mem_cond lag cond_lag _ hmem
    have hb2 := mem_cond_le_maxLagOf lag cond_lag _ hmem
    rw [condWindow_eq_xWindow]
    have h1 := xWindow_length c (lag.getD i 0 + cond_lag)
      (maxLagOf lag cond_lag) (minLagOf lag cond_lag) hb1 hb2
      (by rw [hcl]; omega) (by rw [hcl]; omega)
    omega

/-- Witness for C2 amended: at `y = x = [1,2,3,4,5]`, `lag = [1,2]`,
the windows of the first task have length `5 + min(1,0) − 2 = 3`. -/
theorem C2_amended_witness :
    ((xWindow ((XData.one [1, 2, 3, 4, 5]).col 0) ([1, 2].getD 0 0)
        (maxLagOf [1, 2] 0) (minLagOf [1, 2] 0)).length : Int) =
      (5 : Int) + min (minLagOf [1, 2] 0) 0 - maxLagOf [1, 2] 0 ∧
    ((yWindow [1, 2, 3, 4, 5] (maxLagOf [1, 2] 0)
        (minLagOf [1, 2] 0)).length : Int) =
      (5 : Int) + min (minLagOf [1, 2] 0) 0 - maxLagOf [1, 2] 0 :=
  have h := C2_amended_window_lengths [1, 2, 3, 4, 5]
    (.one [1, 2, 3, 4, 5]) [1, 2] 1 none 0 none 0 0 rfl
    (by decide) (by decide) (by decide) (by decide) (by decide) (by decide)
  ⟨h.1, h.2.1⟩

theorem isBoolDtype_replicate (n : Nat) :
    isBoolDtype (List.replicate n (MaskElem.bool true)) = true := by
  induction n with
  | zero => rfl
  | succ n ih =>
    rw [List.replicate_succ]
    simpa [isBoolDtype] using ih

theorem check_parameters_all_true (x : XData) (y : List Int) (k : Nat)
    (cond : Option (List Int)) :
    check_parameters x y k cond
        (some (List.replicate y.length (MaskElem.bool true))) =
      check_parameters x y k cond none := by
  unfold check_parameters
  split_ifs
  · rfl
  · rfl
  · rfl
  · simp [List.length_replicate, isBoolDtype_replicate]

theorem maskToBools_all_true (n : Nat) :
    maskToBools (some (List.replicate n (MaskElem.bool true))) =
      some (List.replicate n true) := by
  simp [maskToBools, List.map_replicate, MaskElem.toBool]

/-- C8 counterexample: with `y = x = [1,2,3,4,5]`, `lag = −1`,
`k = 1`, an all-`True` mask does not reproduce the unmasked result:
the unmasked call returns a grid, while the masked call fails (the
mask window `mask[-1:4]` is empty and no longer matches the `x`
window, so boolean indexing raises). -/
theorem C8_counterexample :
    estimate_mi ([], []) captureXY captureXYC [1, 2, 3, 4, 5]
        (.one [1, 2, 3, 4, 5]) [-1] 1 none 0
        (some (List.replicate 5 (.bool true))) none ≠
      estimate_mi ([], []) captureXY captureXYC [1, 2, 3, 4, 5]
        (.one [1, 2, 3, 4, 5]) [-1] 1 none 0 none none := by
  intro h
  have h1 : estimate_mi ([], []) captureXY captureXYC [1, 2, 3, 4, 5]
      (.one [1, 2, 3, 4, 5]) [-1] 1 none 0
      (some (List.replicate 5 (.bool true))) none =
      Except.error "boolean index did not match indexed array" := rfl
  rw [h1] at h
  exact Except.noConfusion (h.trans rfl)

/-- C8 amended: whenever `max_lag ≥ 0` (in particular for every lag
set containing a non-negative lag or conditioning lag), supplying an
all-`True` mask of length `N` produces exactly the same outcome as
supplying no mask. -/
theorem C8_amended (R : Type) (d0 : R)
    (est1 : List Int → List Int → Nat → R)
    (est2 : List Int → List Int → List Int → Nat → R)
    (y : List Int) (x : XData) (lag : List Int) (k : Nat)
    (cond : Option (List Int)) (cond_lag : Int) (parallel : Option String)
    (hm0 : 0 ≤ maxLagOf lag cond_lag) :
    estimate_mi d0 est1 est2 y x lag k cond cond_lag
        (some (List.replicate y.length (MaskElem.bool true))) parallel =
      estimate_mi d0 est1 est2 y x lag k cond cond_lag none parallel := by
  unfold estimate_mi
  rw [check_parameters_all_true]
  cases hck : check_parameters x y k cond none with
  | error e => rfl
  | ok u =>
    obtain ⟨hs0, hcnd, hk⟩ := check_parameters_ok x y k cond none hck
    unfold estimate_mi_checked
    cases lag with
    | nil => rfl
    | cons l0 rest =>
      dsimp only
      by_cases hC : (maxLagOf (l0 :: rest) cond_lag -
          minLagOf (l0 :: rest) cond_lag ≥ (y.length : Int) ∨
        maxLagOf (l0 :: rest) cond_lag ≥ (y.length : Int) ∨
        minLagOf (l0 :: rest) cond_lag ≤ -(y.length : Int))
      · rw [if_pos hC, if_pos hC]
      · rw [if_neg hC, if_neg hC]
        rcases hsp : should_be_parallel parallel
            (indicesOf (l0 :: rest).length x.nvar) y.length with e | b <;>
          dsimp only
        · have hifm : ∀ ps : List MiParams,
              (if b then parallelMap (lagged_mi est1 est2) ps
               else ps.map (lagged_mi est1 est2)) =
                ps.map (lagged_mi est1 est2) := by
            intro ps
            cases b <;> rfl
          rw [hifm, hifm]
          have hmaps : (paramsOf x y (l0 :: rest) k cond cond_lag
                (some (List.replicate y.length (MaskElem.bool true)))
                (maxLagOf (l0 :: rest) cond_lag)
                (minLagOf (l0 :: rest) cond_lag)).map
                (lagged_mi est1 est2) =
              (paramsOf x y (l0 :: rest) k cond cond_lag none
                (maxLagOf (l0 :: rest) cond_lag)
                (minLagOf (l0 :: rest) cond_lag)).map
                (lagged_mi est1 est2) := by
            rw [paramsOf_eq, paramsOf_eq, List.map_map, List.map_map]
            refine List.map_congr_left (fun ij hij => ?_)
            obtain ⟨hi, hj⟩ := (mem_indicesOf _ _ ij).mp hij
            have hmem : (l0 :: rest).getD ij.1 0 ∈ l0 :: rest :=
              getD_mem _ ij.1 0 hi
            have hL1 := minLagOf_le_mem (l0 :: rest) cond_lag _ hmem
            have hL2 := mem_le_maxLagOf (l0 :: rest) cond_lag _ hmem
            have hb1 := minLagOf_le_mem_cond (l0 :: rest) cond_lag _ hmem
            have hb2 := mem_cond_le_maxLagOf (l0 :: rest) cond_lag _ hmem
            show lagged_mi est1 est2 ⟨x.col ij.2, y, (l0 :: rest).getD ij.1 0,
              maxLagOf (l0 :: rest) cond_lag, minLagOf (l0 :: rest) cond_lag,
              k, maskToBools (some (List.replicate y.length
                (MaskElem.bool true))), cond, cond_lag⟩ = _
            rw [maskToBools_all_true]
            exact lagged_mi_all_true est1 est2 (x.col ij.2) y _ _ _ k cond
              cond_lag (by rw [XData.col_length, hs0]) hcnd hL1 hL2
              (fun c hc => ⟨hb1, hb2⟩) hm0 (by omega) (by omega)
          rw [hmaps]

/-- Witness for C8 amended: at `y = x = [1,2,3,4,5]`, `lag = 1`, the
all-`True` mask reproduces the unmasked call. -/
theorem C8_amended_witness :
    estimate_mi ([], []) captureXY captureXYC [1, 2, 3, 4, 5]
        (.one [1, 2, 3, 4, 5]) [1] 1 none 0
        (some (List.replicate 5 (.bool true))) none =
      estimate_mi ([], []) captureXY captureXYC [1, 2, 3, 4, 5]
        (.one [1, 2, 3, 4, 5]) [1] 1 none 0 none none :=
  C8_amended (List Int × List Int) ([], []) captureXY captureXYC
    [1, 2, 3, 4, 5] (.one [1, 2, 3, 4, 5]) [1] 1 none 0 none (by decide)

/-- Witness for C4: a two-variable, two-lag call assembles the 2×2
grid of per-task window pairs. -/
theorem C4_grid_assembly_witness :
    estimate_mi ([], []) captureXY captureXYC [1, 2, 3, 4, 5]
        (.two [[1, 10], [2, 20], [3, 30], [4, 40], [5, 50]]) [0, 1] 1
        none 0 none none =
      .ok [[([2, 3, 4, 5], [2, 3, 4, 5]), ([20, 30, 40, 50], [2, 3, 4, 5])],
           [([1, 2, 3, 4], [2, 3, 4, 5]), ([10, 20, 30, 40], [2, 3, 4, 5])]] :=
  C4_grid_assembly ([], []) captureXY captureXYC [1, 2, 3, 4, 5]
    (.two [[1, 10], [2, 20], [3, 30], [4, 40], [5, 50]]) [0, 1] 1
    none 0 none none
    (fun i j =>
      if i = 0 then
        if j = 0 then ([2, 3, 4, 5], [2, 3, 4, 5])
        else ([20, 30, 40, 50], [2, 3, 4, 5])
      else
        if j = 0 then ([1, 2, 3, 4], [2, 3, 4, 5])
        else ([10, 20, 30, 40], [2, 3, 4, 5]))
    false rfl (by decide) (by decide) rfl
    (by
      intro i j hi hj
      have hi2 : i < 2 := by simpa using hi
      have hj2 : j < 2 := by simpa [XData.nvar] using hj
      interval_cases i <;> interval_cases j <;> rfl)
